import Mathlib

/-!
# Verification of the shoumei error-propagation and module-orchestration core

This file shallowly embeds the Rust sources `src/interpreter/mod.rs` and
`src/module.rs` of the `shoumei` repository, together with the diagnostic
substrate (`Severity`, `Diagnostic`, `ErrorMessage`, `DiagnosticResult`,
`ErrorEmitter`) that the crate root declares but whose source is not part of
the two files; those parts are modelled from the specification, as marked in
their doc comments.  Machine integers (`u32`) are modelled as `Nat`; file
handles and the filesystem are modelled as an explicit map from module paths
to raw file contents, where each raw line either decodes to a string or is
invalid UTF-8.
-/

namespace Shoumei

/-- Modelled from the spec: `Severity` (declared in the crate root, not under
`src/`) — ordered enumeration `Warning < Error`. -/
inductive Severity : Type
  | Warning : Severity
  | Error : Severity
deriving DecidableEq, Repr

/-- Modelled from the spec: a severity is pipeline-fatal iff it is `≥ Error`
in the `Warning < Error` order (with two severities, iff it is `Error`). -/
def Severity.isAtLeastError : Severity → Bool
  | .Warning => false
  | .Error => true

/-- `Location` from `src/interpreter/mod.rs` (and its duplicate in
`src/module.rs`): 0-indexed line and column, `u32` modelled as `Nat`. -/
@[ext]
structure Location where
  line : Nat
  col : Nat
deriving DecidableEq, Repr

/-- The lexicographic (line, then col) order on `Location`, as produced by the
Rust `#[derive(PartialOrd, Ord)]` on the field order `(line, col)`. -/
def Location.le (a b : Location) : Prop :=
  a.line < b.line ∨ (a.line = b.line ∧ a.col ≤ b.col)

instance (a b : Location) : Decidable (Location.le a b) := by
  unfold Location.le; infer_instance

/-- `Ord::min` on `Location` under the derived lexicographic order. -/
def Location.min (a b : Location) : Location :=
  if Location.le a b then a else b

/-- `Ord::max` on `Location` under the derived lexicographic order. -/
def Location.max (a b : Location) : Location :=
  if Location.le a b then b else a

/-- `Range` from `src/interpreter/mod.rs`: start inclusive, end exclusive.
The Rust field `end` is a Lean keyword, so it is named `stop` here. -/
@[ext]
structure Range where
  start : Location
  stop : Location
deriving DecidableEq, Repr

/-- `impl From<Location> for Range` in `src/interpreter/mod.rs`. -/
def Range.fromLocation (location : Location) : Range :=
  { start := location
    stop := { line := location.line, col := location.col + 1 } }

/-- `Range::union` in `src/interpreter/mod.rs`. -/
def Range.union (self other : Range) : Range :=
  { start := self.start.min other.start
    stop := self.stop.max other.stop }

/-- `ModulePath` from `src/interpreter/mod.rs` / `src/module.rs`: a list of
path segments. -/
structure ModulePath where
  segments : List String
deriving DecidableEq, Repr

/-- Modelled from the spec: `Diagnostic` (declared in the crate root, not
under `src/`) — location context, either whole-file or range-specific. -/
inductive Diagnostic : Type
  | inFile : ModulePath → Diagnostic
  | inRange : ModulePath → Range → Diagnostic
deriving DecidableEq, Repr

/-- Modelled from the spec: `ErrorMessage` (declared in the crate root, not
under `src/`) — text, severity and location context. -/
structure ErrorMessage where
  text : String
  severity : Severity
  context : Diagnostic
deriving DecidableEq, Repr

/-- Modelled from the spec: `DiagnosticResult<T>` (declared in the crate
root, not under `src/`) — `Ok(value, diagnostics)` or `Fail(diagnostics)`,
diagnostics in insertion order. -/
inductive DiagnosticResult (α : Type) : Type
  | ok : α → List ErrorMessage → DiagnosticResult α
  | fail : List ErrorMessage → DiagnosticResult α
deriving DecidableEq, Repr

namespace DiagnosticResult

variable {α β : Type}

/-- Modelled from the spec: the static constructor `DiagnosticResult::ok`,
an `Ok` with no diagnostics. -/
def mkOk (value : α) : DiagnosticResult α := .ok value []

/-- Modelled from the spec: the static constructor `DiagnosticResult::fail`,
a `Fail` with the one given diagnostic. -/
def mkFail (message : ErrorMessage) : DiagnosticResult α := .fail [message]

/-- The accumulated diagnostic sequence of a result. -/
def diagnostics : DiagnosticResult α → List ErrorMessage
  | .ok _ ds => ds
  | .fail ds => ds

/-- Modelled from the spec: `DiagnosticResult::bind` — short-circuits on
`Fail`; on `Ok(v, ds)` runs `f v` and prepends `ds` to its diagnostics. -/
def bind : DiagnosticResult α → (α → DiagnosticResult β) → DiagnosticResult β
  | .fail ds, _ => .fail ds
  | .ok v ds, f =>
    match f v with
    | .ok u ds2 => .ok u (ds ++ ds2)
    | .fail ds2 => .fail (ds ++ ds2)

/-- Modelled from the spec: `DiagnosticResult::map`, i.e.
`bind (fun v => ok (f v))`. -/
def map (r : DiagnosticResult α) (f : α → β) : DiagnosticResult β :=
  r.bind (fun v => mkOk (f v))

/-- Modelled from the spec: `DiagnosticResult::deny` — if any accumulated
diagnostic has severity `≥ Error`, returns `Fail` with the same diagnostics;
otherwise passes the result through unchanged. -/
def deny (r : DiagnosticResult α) : DiagnosticResult α :=
  if r.diagnostics.any (fun m => m.severity.isAtLeastError) then .fail r.diagnostics
  else r

/-- Whether the result is the `Fail` variant. -/
def isFail : DiagnosticResult α → Bool
  | .ok _ _ => false
  | .fail _ => true

/-- The optional value of a result: `some` on `Ok`, `none` on `Fail`. -/
def toOption : DiagnosticResult α → Option α
  | .ok v _ => some v
  | .fail _ => none

end DiagnosticResult

/-- Modelled from the spec: `ErrorEmitter` (declared in the crate root, not
under `src/`) — an ordered sequence of emitted messages. -/
structure ErrorEmitter where
  messages : List ErrorMessage
deriving DecidableEq, Repr

/-- Modelled from the spec: `ErrorEmitter::process` appends the given
messages to the emitter, in order. -/
def ErrorEmitter.process (e : ErrorEmitter) (msgs : List ErrorMessage) : ErrorEmitter :=
  { messages := e.messages ++ msgs }

/-- Modelled from the spec: `ErrorEmitter::consume_diagnostic` drains all
diagnostics of a result into the emitter and yields the optional value. -/
def ErrorEmitter.consumeDiagnostic {α : Type} (e : ErrorEmitter) (r : DiagnosticResult α) :
    ErrorEmitter × Option α :=
  (e.process r.diagnostics, r.toOption)

/-- A raw file as presented by the OS: a sequence of lines, each either
decoding to a string (`some`) or invalid UTF-8 (`none`).  This models the
`BufReader::lines` iterator of `io::Result<String>` items. -/
abbrev RawFile := List (Option String)

/-- The filesystem, modelling `File::open`: `none` means the file at the
path cannot be opened. -/
abbrev Filesystem := ModulePath → Option RawFile

/-- The `File::open` match in `parse` (`src/interpreter/mod.rs`) and
`ModuleLoader::load` (`src/module.rs`): failure to open yields a single
Error "cannot open file" with whole-file context. -/
def openFile (fs : Filesystem) (module_path : ModulePath) : DiagnosticResult RawFile :=
  match fs module_path with
  | some file => DiagnosticResult.mkOk file
  | none =>
    DiagnosticResult.mkFail
      (ErrorMessage.mk "cannot open file" .Error (.inFile module_path))

/-- The line-reading loop of `parse` / `ModuleLoader::load`: lines are pushed
in order; the first undecodable line aborts with a single Error naming its
1-indexed number, and no further lines are read. -/
def readLinesLoop (module_path : ModulePath) :
    RawFile → Nat → List String → DiagnosticResult (List String)
  | [], _, lines => DiagnosticResult.mkOk lines
  | some line :: rest, line_number, lines =>
    readLinesLoop module_path rest (line_number + 1) (lines ++ [line])
  | none :: _rest, line_number, _ =>
    DiagnosticResult.mkFail
      (ErrorMessage.mk
        ("file contained invalid UTF-8 on line " ++ toString (line_number + 1))
        .Error (.inFile module_path))

/-- Steps 1–2 of both `parse` and `ModuleLoader::load` (the two functions
contain this code verbatim): open the file, then bind into the line-reading
loop starting at line number 0 with an empty line buffer. -/
def readFileLines (fs : Filesystem) (module_path : ModulePath) :
    DiagnosticResult (List String) :=
  (openFile fs module_path).bind (fun file => readLinesLoop module_path file 0 [])

/-- `types::ProjectTypesC`: a map from module paths to per-module type
tables, modelled as an association list (newest entry first, as `HashMap`
insertion overwrite). -/
abbrev ProjectTypesC (τ : Type) : Type := List (ModulePath × τ)

/-- `ProjectTypesC::new()`: the empty map. -/
def ProjectTypesC.new {τ : Type} : ProjectTypesC τ := []

/-- `ProjectTypesC::insert`: insert a binding, shadowing any older one. -/
def ProjectTypesC.insert {τ : Type} (m : ProjectTypesC τ) (k : ModulePath) (v : τ) :
    ProjectTypesC τ :=
  (k, v) :: m

section Pipeline

/- The six compilation passes are external collaborators, specified only by
their signatures; their artifact types are abstract.  `TokL` is the lexer's
token sequence, `TokB` the indentation block structure, `TokBr` the
bracket-matched block structure, `ModP` the just-parsed syntax tree
(`parser::ModuleP`), `Ty` the per-module type table, `Ix` the
cross-reference index. -/
variable {TokL TokB TokBr ModP Ty Ix : Type}

/-- The front half of `parse` (`src/interpreter/mod.rs`): file open + line
read, then the lex / indent / brackets passes each followed by `deny`, then
the parser pass (its `deny` is applied by the caller `parse`). -/
def parseFrontend (fs : Filesystem)
    (lex : ModulePath → List String → DiagnosticResult TokL)
    (process_indent : ModulePath → TokL → DiagnosticResult TokB)
    (process_brackets : ModulePath → TokB → DiagnosticResult TokBr)
    (parser_parse : ModulePath → TokBr → DiagnosticResult ModP)
    (module_path : ModulePath) : DiagnosticResult ModP :=
  ((((readFileLines fs module_path).bind
    (fun lines => lex module_path lines)).deny.bind
    (fun tokens => process_indent module_path tokens)).deny.bind
    (fun token_block => process_brackets module_path token_block)).deny.bind
    (fun token_block => parser_parse module_path token_block)

/-- `parse` in `src/interpreter/mod.rs`: the full pipeline.  After the
parser pass and its `deny`, the type-computation pass wraps the type table
into a fresh `ProjectTypesC` keyed by the module path, then the indexing
pass runs, and the final `map` discards the type table and index, returning
only the syntax tree; a last `deny` closes the chain.  (The `println!`
debugging output of the source has no observable effect on the result and is
not modelled.) -/
def parse (fs : Filesystem)
    (lex : ModulePath → List String → DiagnosticResult TokL)
    (process_indent : ModulePath → TokL → DiagnosticResult TokB)
    (process_brackets : ModulePath → TokB → DiagnosticResult TokBr)
    (parser_parse : ModulePath → TokBr → DiagnosticResult ModP)
    (compute_types : ModulePath → ModP → DiagnosticResult Ty)
    (index : ModulePath → ModP → ProjectTypesC Ty → DiagnosticResult Ix)
    (module_path : ModulePath) : DiagnosticResult ModP :=
  ((((parseFrontend fs lex process_indent process_brackets parser_parse
      module_path).deny.bind
    (fun module =>
      let types := compute_types module_path module
      let project_types :=
        types.map (fun types => ProjectTypesC.insert ProjectTypesC.new module_path types)
      project_types.map (fun project_types => (project_types, module)))).deny.bind
    (fun pm => (index module_path pm.2 pm.1).map (fun idx => (pm.1, idx, pm.2)))).deny.map
    (fun pim => pim.2.2)).deny

end Pipeline

/-- `Module` from `src/module.rs`: the parsed representation of one source
file (an empty struct in the current source). -/
inductive Module : Type
  | mk : Module
deriving DecidableEq, Repr

/-- `ModuleLoader` from `src/module.rs`: the cycle-detection set, the result
cache (modelled as a function; `none` = no entry, `some none` = load
attempted and failed, `some (some m)` = loaded), and the owned emitter. -/
structure ModuleLoader where
  currently_loading : Finset ModulePath
  modules : ModulePath → Option (Option Module)
  error_emitter : ErrorEmitter

/-- `ModuleLoader::new` from `src/module.rs`. -/
def ModuleLoader.new (error_emitter : ErrorEmitter) : ModuleLoader :=
  { currently_loading := ∅
    modules := fun _ => none
    error_emitter := error_emitter }

/-- `ModuleLoader::load` from `src/module.rs`.  If the path is already being
loaded, emit one cyclic-inclusion Error and return; otherwise insert the
path into `currently_loading`, open and read the file (verbatim the same
code as `parse` steps 1–2, here `readFileLines`), bind into module
construction, drain the diagnostics into the owned emitter, remove the path
from `currently_loading`, and unconditionally insert the optional module
into the cache. -/
def ModuleLoader.load (self : ModuleLoader) (fs : Filesystem) (module_path : ModulePath) :
    ModuleLoader :=
  if module_path ∈ self.currently_loading then
    { self with
      error_emitter := self.error_emitter.process
        [ErrorMessage.mk "cyclic module inclusion detected" .Error (.inFile module_path)] }
  else
    let currently_loading := insert module_path self.currently_loading
    let module :=
      (readFileLines fs module_path).bind (fun _ => DiagnosticResult.mkOk Module.mk)
    let consumed := self.error_emitter.consumeDiagnostic module
    { currently_loading := currently_loading.erase module_path
      modules := fun p => if p = module_path then some consumed.2 else self.modules p
      error_emitter := consumed.1 }

/-- `ModuleLoader::take_error_emitter` from `src/module.rs`: hand out the
accumulated emitter, resetting the loader's emitter to an empty one. -/
def ModuleLoader.takeErrorEmitter (self : ModuleLoader) : ErrorEmitter × ModuleLoader :=
  (self.error_emitter, { self with error_emitter := { messages := [] } })

/-- The platform path separator (Unix `/`). -/
def pathSep : Char := '/'

/-- Whether `PathBuf::push` must insert a separator before appending: true
iff the buffer's rightmost byte exists and is not a separator (Rust
`buf.last().map(|c| !is_sep_byte(*c)).unwrap_or(false)`). -/
def needSep (buf : List Char) : Bool :=
  match buf.getLast? with
  | some c => decide (c ≠ pathSep)
  | none => false

/-- `PathBuf::push` (Unix): an absolute path (starting with the separator)
replaces the buffer; otherwise a separator is inserted when needed and the
pushed path's bytes are appended.  Pushing an empty string appends no bytes
(but still inserts a separator when the buffer needs one). -/
def pushSegment (buf : List Char) (s : String) : List Char :=
  if s.data.head? = some pathSep then s.data
  else (if needSep buf then buf ++ [pathSep] else buf) ++ s.data

/-- `impl From<&ModulePath> for PathBuf` (`path.0.iter().collect()`):
collecting is folding `PathBuf::push` over the segments, starting from the
empty buffer.  A filesystem path is modelled as its character sequence. -/
def joinSegments (segments : List String) : List Char :=
  segments.foldl pushSegment []

/-- Proof helper: the tail of a joined path — each segment preceded by one
separator.  For non-empty separator-free segments the fold of
`pushSegment` produces the head segment followed by this tail. -/
def sepTail : List String → List Char
  | [] => []
  | s :: rest => pathSep :: (s.data ++ sepTail rest)

/-- `ModulePath` converted to a filesystem path. -/
def ModulePath.toPathChars (p : ModulePath) : List Char :=
  joinSegments p.segments

/-- Modelled from the spec: re-splitting a filesystem path on the platform
separator to recover the segment sequence (the `PathBuf → ModulePath`
direction of the round trip is not in the two source files). -/
def splitSegmentsAux : List Char → List Char → List String
  | acc, [] => [String.mk acc.reverse]
  | acc, c :: cs =>
    if c = pathSep then String.mk acc.reverse :: splitSegmentsAux [] cs
    else splitSegmentsAux (c :: acc) cs

/-- Modelled from the spec: split a filesystem path on separators. -/
def splitSegments (cs : List Char) : List String :=
  splitSegmentsAux [] cs

/-! Concrete inputs used to instantiate the theorems below on closed values.
The pass artifact types are all instantiated at `Nat`. -/

/-- The module path `["main"]`. -/
def mpMain : ModulePath := ⟨["main"]⟩

/-- A filesystem with a single well-formed one-line file everywhere. -/
def fsOneLine : Filesystem := fun _ => some [some "x"]

/-- A filesystem whose files have a good first line, an invalid-UTF-8 second
line, and a further line after the bad one. -/
def fsBadLine : Filesystem := fun _ => some [some "ok", none, some "later"]

/-- A lexer that always succeeds with no diagnostics. -/
def lexOk : ModulePath → List String → DiagnosticResult Nat :=
  fun _ _ => DiagnosticResult.mkOk 0

/-- An indentation pass that always succeeds with no diagnostics. -/
def indentOk : ModulePath → Nat → DiagnosticResult Nat :=
  fun _ _ => DiagnosticResult.mkOk 1

/-- A bracket pass that always succeeds with no diagnostics. -/
def bracketsOk : ModulePath → Nat → DiagnosticResult Nat :=
  fun _ _ => DiagnosticResult.mkOk 2

/-- A lenient parser pass that produces a best-effort value while logging an
Error-severity diagnostic. -/
def parserErrOk : ModulePath → Nat → DiagnosticResult Nat :=
  fun p _ => DiagnosticResult.ok 7 [ErrorMessage.mk "syntax error" .Error (.inFile p)]

/-- A parser pass that succeeds with no diagnostics. -/
def parserOk : ModulePath → Nat → DiagnosticResult Nat :=
  fun _ _ => DiagnosticResult.mkOk 7

/-- A type-computation pass that succeeds with no diagnostics. -/
def typesOk : ModulePath → Nat → DiagnosticResult Nat :=
  fun _ _ => DiagnosticResult.mkOk 3

/-- A type-computation pass that fails. -/
def typesFail : ModulePath → Nat → DiagnosticResult Nat :=
  fun p _ => DiagnosticResult.mkFail (ErrorMessage.mk "type error" .Error (.inFile p))

/-- An indexing pass that succeeds with no diagnostics. -/
def indexOk : ModulePath → Nat → ProjectTypesC Nat → DiagnosticResult Nat :=
  fun _ _ _ => DiagnosticResult.mkOk 4

/-- A loader state that is already in the middle of loading `mpMain`. -/
def loaderCyc : ModuleLoader :=
  { currently_loading := {mpMain}
    modules := fun _ => none
    error_emitter := ⟨[]⟩ }

/-- A loader state that is idle but already has a cache entry for `mpMain`. -/
def loaderWithEntry : ModuleLoader :=
  { currently_loading := ∅
    modules := fun q => if q = mpMain then some (some Module.mk) else none
    error_emitter := ⟨[]⟩ }

/-- A concrete range on line 0. -/
def rangeA : Range := ⟨⟨0, 1⟩, ⟨0, 3⟩⟩

/-- A concrete range spanning lines 1–2. -/
def rangeB : Range := ⟨⟨1, 0⟩, ⟨2, 5⟩⟩

/-- A concrete range covering both `rangeA` and `rangeB`. -/
def rangeR : Range := ⟨⟨0, 0⟩, ⟨9, 9⟩⟩

/-! ## Helper lemmas about the diagnostic-result algebra -/

namespace DiagnosticResult

variable {α β : Type}

theorem diagnostics_ok (v : α) (ds : List ErrorMessage) :
    (DiagnosticResult.ok v ds).diagnostics = ds := rfl

theorem diagnostics_fail (ds : List ErrorMessage) :
    (DiagnosticResult.fail ds : DiagnosticResult α).diagnostics = ds := rfl

theorem bind_fail (ds : List ErrorMessage) (f : α → DiagnosticResult β) :
    (DiagnosticResult.fail ds).bind f = DiagnosticResult.fail ds := rfl

theorem bind_ok_of_ok {f : α → DiagnosticResult β} {v : α} {u : β}
    {ds ds2 : List ErrorMessage} (hf : f v = DiagnosticResult.ok u ds2) :
    (DiagnosticResult.ok v ds).bind f = DiagnosticResult.ok u (ds ++ ds2) := by
  simp only [bind, hf]

theorem bind_ok_of_fail {f : α → DiagnosticResult β} {v : α}
    {ds ds2 : List ErrorMessage} (hf : f v = DiagnosticResult.fail ds2) :
    (DiagnosticResult.ok v ds).bind f = DiagnosticResult.fail (ds ++ ds2) := by
  simp only [bind, hf]

theorem map_fail (ds : List ErrorMessage) (f : α → β) :
    (DiagnosticResult.fail ds : DiagnosticResult α).map f = DiagnosticResult.fail ds := rfl

theorem map_ok (v : α) (ds : List ErrorMessage) (f : α → β) :
    (DiagnosticResult.ok v ds).map f = DiagnosticResult.ok (f v) ds := by
  simp only [map, bind, mkOk, List.append_nil]

theorem deny_fail (ds : List ErrorMessage) :
    (DiagnosticResult.fail ds : DiagnosticResult α).deny = DiagnosticResult.fail ds := by
  unfold deny
  split <;> rfl

theorem deny_of_fatal {r : DiagnosticResult α}
    (h : r.diagnostics.any (fun m => m.severity.isAtLeastError) = true) :
    r.deny = DiagnosticResult.fail r.diagnostics := by
  unfold deny
  rw [if_pos h]

theorem deny_of_clean {r : DiagnosticResult α}
    (h : r.diagnostics.any (fun m => m.severity.isAtLeastError) = false) :
    r.deny = r := by
  unfold deny
  rw [h]
  rfl

theorem deny_ok_of_fatal (v : α) (ds : List ErrorMessage)
    (h : ds.any (fun m => m.severity.isAtLeastError) = true) :
    (DiagnosticResult.ok v ds).deny = DiagnosticResult.fail ds :=
  deny_of_fatal h

theorem deny_ok_of_clean (v : α) (ds : List ErrorMessage)
    (h : ds.any (fun m => m.severity.isAtLeastError) = false) :
    (DiagnosticResult.ok v ds).deny = DiagnosticResult.ok v ds :=
  deny_of_clean h

theorem isFail_fail (ds : List ErrorMessage) :
    (DiagnosticResult.fail ds : DiagnosticResult α).isFail = true := rfl

end DiagnosticResult

/-- Claim C1: `deny` returns the result unchanged when every accumulated
diagnostic has severity below `Error`, and returns `Fail` carrying exactly
the same diagnostic sequence whenever some accumulated diagnostic has
severity `Error` or above, even when the result was `Ok` with a value. -/
theorem C1_deny_spec {α : Type} (r : DiagnosticResult α) :
    ((∀ m ∈ r.diagnostics, m.severity.isAtLeastError = false) → r.deny = r) ∧
    ((∃ m ∈ r.diagnostics, m.severity.isAtLeastError = true) →
      r.deny = DiagnosticResult.fail r.diagnostics) := by
  constructor
  · intro h
    apply DiagnosticResult.deny_of_clean
    rw [List.any_eq_false]
    intro m hm
    rw [h m hm]
    exact Bool.false_ne_true
  · rintro ⟨m, hm, hfatal⟩
    apply DiagnosticResult.deny_of_fatal
    rw [List.any_eq_true]
    exact ⟨m, hm, hfatal⟩

/-- Witness for C1: a concrete `Ok` result carrying a value and one
Error-severity diagnostic is turned by `deny` into `Fail` with the same
diagnostic list. -/
theorem C1_deny_spec_witness :
    (DiagnosticResult.ok (42 : Nat)
        [ErrorMessage.mk "boom" .Error (.inFile mpMain)]).deny
      = DiagnosticResult.fail [ErrorMessage.mk "boom" .Error (.inFile mpMain)] :=
  (C1_deny_spec
    (DiagnosticResult.ok (42 : Nat)
      [ErrorMessage.mk "boom" .Error (.inFile mpMain)])).2
    (by decide)

/-- Claim C3: a `load` call on a path already in `currently_loading` only
appends the single Error message "cyclic module inclusion detected" with
whole-file context to the owned emitter; it performs no file I/O (the result
does not depend on the filesystem) and leaves `currently_loading` and the
whole `modules` cache unchanged. -/
theorem C3_cyclic_load (s : ModuleLoader) (p : ModulePath) (fs : Filesystem)
    (h : p ∈ s.currently_loading) :
    s.load fs p
      = { s with
          error_emitter := s.error_emitter.process
            [ErrorMessage.mk "cyclic module inclusion detected" .Error (.inFile p)] } := by
  unfold ModuleLoader.load
  rw [if_pos h]

/-- Witness for C3: the cyclic branch evaluated on a concrete loader state
already loading `["main"]`. -/
theorem C3_cyclic_load_witness :
    loaderCyc.load fsOneLine mpMain
      = { loaderCyc with
          error_emitter := loaderCyc.error_emitter.process
            [ErrorMessage.mk "cyclic module inclusion detected" .Error (.inFile mpMain)] } :=
  C3_cyclic_load loaderCyc mpMain fsOneLine (by simp [loaderCyc])

/-- Claim C2: if the result accumulated up to and including the parser pass
carries an Error-severity diagnostic when the following `deny` is applied —
in particular when the lexer succeeds but the parser emits an Error — then
the overall result of `parse` is `Fail` carrying exactly the diagnostics of
the passes that ran, and it is the same for every type-computation and
indexing pass (so those passes are never invoked for the module). -/
theorem C2_error_halts_pipeline {TokL TokB TokBr ModP : Type}
    (fs : Filesystem)
    (lex : ModulePath → List String → DiagnosticResult TokL)
    (process_indent : ModulePath → TokL → DiagnosticResult TokB)
    (process_brackets : ModulePath → TokB → DiagnosticResult TokBr)
    (parser_parse : ModulePath → TokBr → DiagnosticResult ModP)
    (module_path : ModulePath)
    (h : (parseFrontend fs lex process_indent process_brackets parser_parse
        module_path).diagnostics.any (fun m => m.severity.isAtLeastError) = true) :
    ∀ {Ty Ix : Type} (compute_types : ModulePath → ModP → DiagnosticResult Ty)
      (index : ModulePath → ModP → ProjectTypesC Ty → DiagnosticResult Ix),
      parse fs lex process_indent process_brackets parser_parse compute_types index
          module_path
        = DiagnosticResult.fail
            (parseFrontend fs lex process_indent process_brackets parser_parse
              module_path).diagnostics := by
  intro Ty Ix compute_types index
  unfold parse
  rw [DiagnosticResult.deny_of_fatal h, DiagnosticResult.bind_fail,
    DiagnosticResult.deny_fail, DiagnosticResult.bind_fail, DiagnosticResult.deny_fail,
    DiagnosticResult.map_fail, DiagnosticResult.deny_fail]

/-- Witness for C2: on a concrete one-line file where the lexer succeeds
cleanly and the (lenient) parser produces a value but logs an
Error-severity diagnostic, the whole pipeline returns `Fail` with exactly
that diagnostic. -/
theorem C2_error_halts_pipeline_witness :
    parse fsOneLine lexOk indentOk bracketsOk parserErrOk typesOk indexOk mpMain
      = DiagnosticResult.fail [ErrorMessage.mk "syntax error" .Error (.inFile mpMain)] := by
  have h := C2_error_halts_pipeline fsOneLine lexOk indentOk bracketsOk parserErrOk
    mpMain (by decide) typesOk indexOk
  rw [h]
  decide

/-- Claim C4: on success `parse` returns only the just-parsed syntax tree —
whenever it returns `Ok` the value is exactly the module produced by the
parser stage — while the type-computation and indexing passes act as a
gate: if either of them returns `Fail`, the overall result of `parse` is
`Fail`. -/
theorem C4_parse_result_gate {TokL TokB TokBr ModP Ty Ix : Type}
    (fs : Filesystem)
    (lex : ModulePath → List String → DiagnosticResult TokL)
    (process_indent : ModulePath → TokL → DiagnosticResult TokB)
    (process_brackets : ModulePath → TokB → DiagnosticResult TokBr)
    (parser_parse : ModulePath → TokBr → DiagnosticResult ModP)
    (compute_types : ModulePath → ModP → DiagnosticResult Ty)
    (index : ModulePath → ModP → ProjectTypesC Ty → DiagnosticResult Ix)
    (module_path : ModulePath) (m : ModP) (ds : List ErrorMessage)
    (h : parseFrontend fs lex process_indent process_brackets parser_parse module_path
      = DiagnosticResult.ok m ds) :
    (∀ v ds2,
      parse fs lex process_indent process_brackets parser_parse compute_types index
          module_path
        = DiagnosticResult.ok v ds2 → v = m) ∧
    ((compute_types module_path m).isFail = true →
      (parse fs lex process_indent process_brackets parser_parse compute_types index
        module_path).isFail = true) ∧
    (∀ t dst, compute_types module_path m = DiagnosticResult.ok t dst →
      (index module_path m
        (ProjectTypesC.insert ProjectTypesC.new module_path t)).isFail = true →
      (parse fs lex process_indent process_brackets parser_parse compute_types index
        module_path).isFail = true) := by
  by_cases hf1 : ds.any (fun msg => msg.severity.isAtLeastError) = true
  · have hd : (parseFrontend fs lex process_indent process_brackets parser_parse
        module_path).deny = DiagnosticResult.fail ds := by
      rw [h]
      exact DiagnosticResult.deny_of_fatal hf1
    have hparse : parse fs lex process_indent process_brackets parser_parse compute_types
        index module_path = DiagnosticResult.fail ds := by
      unfold parse
      rw [hd, DiagnosticResult.bind_fail, DiagnosticResult.deny_fail,
        DiagnosticResult.bind_fail, DiagnosticResult.deny_fail,
        DiagnosticResult.map_fail, DiagnosticResult.deny_fail]
    refine ⟨?_, ?_, ?_⟩
    · intro v ds2 hcontra
      rw [hparse] at hcontra
      cases hcontra
    · intro _
      rw [hparse]
      rfl
    · intro _ _ _ _
      rw [hparse]
      rfl
  · rw [Bool.not_eq_true] at hf1
    have hd : (parseFrontend fs lex process_indent process_brackets parser_parse
        module_path).deny = DiagnosticResult.ok m ds := by
      rw [h]
      exact DiagnosticResult.deny_of_clean hf1
    rcases hct : compute_types module_path m with ⟨t, dst⟩ | ⟨dst⟩
    · -- the type-computation pass produced a table `t` with diagnostics `dst`
      by_cases hf2 : ((ds ++ dst).any fun msg => msg.severity.isAtLeastError) = true
      · have hparse : parse fs lex process_indent process_brackets parser_parse
            compute_types index module_path = DiagnosticResult.fail (ds ++ dst) := by
          unfold parse
          rw [hd]
          simp only [DiagnosticResult.bind, hct, DiagnosticResult.map_ok]
          rw [DiagnosticResult.deny_ok_of_fatal _ _ hf2]
          dsimp only
          rw [DiagnosticResult.deny_fail, DiagnosticResult.map_fail,
            DiagnosticResult.deny_fail]
        refine ⟨?_, ?_, ?_⟩
        · intro v ds2 hcontra
          rw [hparse] at hcontra
          cases hcontra
        · intro _
          rw [hparse]
          rfl
        · intro _ _ _ _
          rw [hparse]
          rfl
      · rw [Bool.not_eq_true] at hf2
        rcases hix : index module_path m
            (ProjectTypesC.insert ProjectTypesC.new module_path t) with ⟨i, dsi⟩ | ⟨dsi⟩
        · -- the indexing pass produced an index `i` with diagnostics `dsi`
          by_cases hf3 : (((ds ++ dst) ++ dsi).any
              fun msg => msg.severity.isAtLeastError) = true
          · have hparse : parse fs lex process_indent process_brackets parser_parse
                compute_types index module_path
                = DiagnosticResult.fail ((ds ++ dst) ++ dsi) := by
              unfold parse
              rw [hd]
              simp only [DiagnosticResult.bind, hct, DiagnosticResult.map_ok]
              rw [DiagnosticResult.deny_ok_of_clean _ _ hf2]
              simp only [DiagnosticResult.bind, hix, DiagnosticResult.map_ok]
              rw [DiagnosticResult.deny_ok_of_fatal _ _ hf3,
                DiagnosticResult.map_fail, DiagnosticResult.deny_fail]
            refine ⟨?_, ?_, ?_⟩
            · intro v ds2 hcontra
              rw [hparse] at hcontra
              cases hcontra
            · intro hctf
              simp [DiagnosticResult.isFail] at hctf
            · intro _ _ _ _
              rw [hparse]
              rfl
          · rw [Bool.not_eq_true] at hf3
            have hparse : parse fs lex process_indent process_brackets parser_parse
                compute_types index module_path
                = DiagnosticResult.ok m ((ds ++ dst) ++ dsi) := by
              unfold parse
              rw [hd]
              simp only [DiagnosticResult.bind, hct, DiagnosticResult.map_ok]
              rw [DiagnosticResult.deny_ok_of_clean _ _ hf2]
              simp only [DiagnosticResult.bind, hix, DiagnosticResult.map_ok]
              rw [DiagnosticResult.deny_ok_of_clean _ _ hf3, DiagnosticResult.map_ok,
                DiagnosticResult.deny_ok_of_clean _ _ hf3]
            refine ⟨?_, ?_, ?_⟩
            · intro v ds2 heq
              rw [hparse] at heq
              injection heq with h1 _
              exact h1.symm
            · intro hctf
              simp [DiagnosticResult.isFail] at hctf
            · intro t2 dst2 hct2 hix2
              injection hct2 with e1 _
              subst e1
              rw [hix] at hix2
              simp [DiagnosticResult.isFail] at hix2
        · -- the indexing pass failed
          have hparse : parse fs lex process_indent process_brackets parser_parse
              compute_types index module_path
              = DiagnosticResult.fail ((ds ++ dst) ++ dsi) := by
            unfold parse
            rw [hd]
            simp only [DiagnosticResult.bind, hct, DiagnosticResult.map_ok]
            rw [DiagnosticResult.deny_ok_of_clean _ _ hf2]
            simp only [DiagnosticResult.bind, hix, DiagnosticResult.map_fail]
            rw [DiagnosticResult.deny_fail, DiagnosticResult.map_fail,
              DiagnosticResult.deny_fail]
          refine ⟨?_, ?_, ?_⟩
          · intro v ds2 hcontra
            rw [hparse] at hcontra
            cases hcontra
          · intro hctf
            simp [DiagnosticResult.isFail] at hctf
          · intro _ _ _ _
            rw [hparse]
            rfl
    · -- the type-computation pass failed
      have hparse : parse fs lex process_indent process_brackets parser_parse
          compute_types index module_path = DiagnosticResult.fail (ds ++ dst) := by
        unfold parse
        rw [hd]
        simp only [DiagnosticResult.bind, hct, DiagnosticResult.map_fail]
        rw [DiagnosticResult.deny_fail]
        dsimp only
        rw [DiagnosticResult.deny_fail, DiagnosticResult.map_fail,
          DiagnosticResult.deny_fail]
      refine ⟨?_, ?_, ?_⟩
      · intro v ds2 hcontra
        rw [hparse] at hcontra
        cases hcontra
      · intro _
        rw [hparse]
        rfl
      · intro t2 dst2 hct2 _
        cases hct2

/-- Witness for C4: on a concrete file where the front half of the pipeline
succeeds cleanly and the type-computation pass fails, `parse` is `Fail`. -/
theorem C4_parse_result_gate_witness :
    (parse fsOneLine lexOk indentOk bracketsOk parserOk typesFail indexOk
      mpMain).isFail = true :=
  (C4_parse_result_gate fsOneLine lexOk indentOk bracketsOk parserOk typesFail indexOk
    mpMain 7 [] (by decide)).2.1 (by decide)

/-- Claim C5: after any `load` call returns, `currently_loading` equals its
value before the call: a cyclic call never inserts the path, and a
non-cyclic load inserts it on entry and removes it on completion whether
the load succeeded or failed. -/
theorem C5_currently_loading_restored (s : ModuleLoader) (fs : Filesystem) (p : ModulePath) :
    (s.load fs p).currently_loading = s.currently_loading := by
  unfold ModuleLoader.load
  split
  · rfl
  · exact Finset.erase_insert (by assumption)

/-- Claim C8: converting a `Location` to a `Range` yields the unit range
starting at that location and ending one column later on the same line. -/
theorem C8_from_location (l : Location) :
    Range.fromLocation l
      = { start := l, stop := { line := l.line, col := l.col + 1 } } := rfl

/-- On a raw file whose first undecodable line sits after `goods` decodable
lines, the reading loop fails with the single Error naming that line's
1-indexed number, whatever follows the bad line and whatever was read
before. -/
theorem readLinesLoop_first_bad (module_path : ModulePath) (goods : List String) :
    ∀ (rest : RawFile) (n : Nat) (acc : List String),
      readLinesLoop module_path (goods.map some ++ none :: rest) n acc
        = DiagnosticResult.fail
            [ErrorMessage.mk
              ("file contained invalid UTF-8 on line " ++ toString (n + goods.length + 1))
              .Error (.inFile module_path)] := by
  induction goods with
  | nil =>
    intro rest n acc
    simp [readLinesLoop, DiagnosticResult.mkFail]
  | cons g gs ih =>
    intro rest n acc
    have h2 := ih rest (n + 1) (acc ++ [g])
    simp only [List.map_cons, List.cons_append, List.append_eq, readLinesLoop,
      List.length_cons] at h2 ⊢
    rw [h2]
    have e : n + 1 + gs.length = n + (gs.length + 1) := by omega
    rw [e]

/-- Claim C6: if some line of the opened file is not valid UTF-8, `parse`
returns `Fail` carrying a single Error-severity diagnostic naming that
line's 1-indexed number with whole-file context; the result does not depend
on the lines after the bad one (reading stops there) nor on any of the six
passes (no compilation pass is invoked). -/
theorem C6_invalid_line (fs : Filesystem) (module_path : ModulePath)
    (goods : List String) (rest : RawFile)
    (hfs : fs module_path = some (goods.map some ++ none :: rest)) :
    ∀ {TokL TokB TokBr ModP Ty Ix : Type}
      (lex : ModulePath → List String → DiagnosticResult TokL)
      (process_indent : ModulePath → TokL → DiagnosticResult TokB)
      (process_brackets : ModulePath → TokB → DiagnosticResult TokBr)
      (parser_parse : ModulePath → TokBr → DiagnosticResult ModP)
      (compute_types : ModulePath → ModP → DiagnosticResult Ty)
      (index : ModulePath → ModP → ProjectTypesC Ty → DiagnosticResult Ix),
      parse fs lex process_indent process_brackets parser_parse compute_types index
          module_path
        = DiagnosticResult.fail
            [ErrorMessage.mk
              ("file contained invalid UTF-8 on line " ++ toString (goods.length + 1))
              .Error (.inFile module_path)] := by
  intro TokL TokB TokBr ModP Ty Ix lex process_indent process_brackets parser_parse
    compute_types index
  have hloop := readLinesLoop_first_bad module_path goods rest 0 []
  rw [Nat.zero_add] at hloop
  have hread : readFileLines fs module_path
      = DiagnosticResult.fail
          [ErrorMessage.mk
            ("file contained invalid UTF-8 on line " ++ toString (goods.length + 1))
            .Error (.inFile module_path)] := by
    unfold readFileLines openFile
    rw [hfs]
    dsimp only
    simp only [DiagnosticResult.mkOk, DiagnosticResult.bind]
    rw [hloop]
    simp
  have hfront : parseFrontend fs lex process_indent process_brackets parser_parse
      module_path
      = DiagnosticResult.fail
          [ErrorMessage.mk
            ("file contained invalid UTF-8 on line " ++ toString (goods.length + 1))
            .Error (.inFile module_path)] := by
    unfold parseFrontend
    rw [hread, DiagnosticResult.bind_fail, DiagnosticResult.deny_fail,
      DiagnosticResult.bind_fail, DiagnosticResult.deny_fail,
      DiagnosticResult.bind_fail, DiagnosticResult.deny_fail,
      DiagnosticResult.bind_fail]
  unfold parse
  rw [hfront, DiagnosticResult.deny_fail, DiagnosticResult.bind_fail,
    DiagnosticResult.deny_fail, DiagnosticResult.bind_fail,
    DiagnosticResult.deny_fail, DiagnosticResult.map_fail,
    DiagnosticResult.deny_fail]

/-- Witness for C6: a concrete file whose second line is invalid UTF-8
makes `parse` fail with the diagnostic naming line 2. -/
theorem C6_invalid_line_witness :
    parse fsBadLine lexOk indentOk bracketsOk parserOk typesOk indexOk mpMain
      = DiagnosticResult.fail
          [ErrorMessage.mk "file contained invalid UTF-8 on line 2" .Error
            (.inFile mpMain)] := by
  have h := C6_invalid_line fsBadLine mpMain ["ok"] [some "later"] rfl
    lexOk indentOk bracketsOk parserOk typesOk indexOk
  rw [h]
  decide

/-! ## Helper lemmas about the lexicographic location order and `min`/`max` -/

theorem Location.min_comm (a b : Location) : a.min b = b.min a := by
  cases a
  cases b
  unfold Location.min
  split_ifs <;> (simp only [Location.le, Location.mk.injEq] at * <;> omega)

theorem Location.max_comm (a b : Location) : a.max b = b.max a := by
  cases a
  cases b
  unfold Location.max
  split_ifs <;> (simp only [Location.le, Location.mk.injEq] at * <;> omega)

theorem Location.min_assoc (a b c : Location) : a.min (b.min c) = (a.min b).min c := by
  cases a
  cases b
  cases c
  unfold Location.min
  split_ifs <;> (simp only [Location.le, Location.mk.injEq] at * <;> omega)

theorem Location.max_assoc (a b c : Location) : a.max (b.max c) = (a.max b).max c := by
  cases a
  cases b
  cases c
  unfold Location.max
  split_ifs <;> (simp only [Location.le, Location.mk.injEq] at * <;> omega)

theorem Location.min_self (a : Location) : a.min a = a := by
  unfold Location.min
  split <;> rfl

theorem Location.max_self (a : Location) : a.max a = a := by
  unfold Location.max
  split <;> rfl

theorem Location.min_le_left (a b : Location) : Location.le (a.min b) a := by
  cases a
  cases b
  unfold Location.min
  split_ifs <;> simp only [Location.le, true_and, and_true] at * <;> omega

theorem Location.min_le_right (a b : Location) : Location.le (a.min b) b := by
  cases a
  cases b
  unfold Location.min
  split_ifs <;> simp only [Location.le, true_and, and_true] at * <;> omega

theorem Location.le_max_left (a b : Location) : Location.le a (a.max b) := by
  cases a
  cases b
  unfold Location.max
  split_ifs <;> simp only [Location.le, true_and, and_true] at * <;> omega

theorem Location.le_max_right (a b : Location) : Location.le b (a.max b) := by
  cases a
  cases b
  unfold Location.max
  split_ifs <;> simp only [Location.le, true_and, and_true] at * <;> omega

theorem Location.le_min {a b c : Location} (h1 : Location.le c a) (h2 : Location.le c b) :
    Location.le c (a.min b) := by
  cases a
  cases b
  cases c
  unfold Location.min
  split_ifs <;> simp only [Location.le, true_and, and_true] at * <;> omega

theorem Location.max_le {a b c : Location} (h1 : Location.le a c) (h2 : Location.le b c) :
    Location.le (a.max b) c := by
  cases a
  cases b
  cases c
  unfold Location.max
  split_ifs <;> simp only [Location.le, true_and, and_true] at * <;> omega

theorem Range.union_comm (a b : Range) : a.union b = b.union a := by
  unfold Range.union
  rw [Location.min_comm, Location.max_comm]

theorem Range.union_assoc (a b c : Range) : a.union (b.union c) = (a.union b).union c := by
  unfold Range.union
  rw [Location.min_assoc, Location.max_assoc]

theorem Range.union_self (a : Range) : a.union a = a := by
  unfold Range.union
  rw [Location.min_self, Location.max_self]

/-- Claim C7: `Range.union` is commutative, associative and idempotent, and
`union a b` is the smallest range covering both under the lexicographic
(line, then col) order on locations: its start is the `min` of the two
starts, its end the `max` of the two ends, it covers both ranges, and its
span is contained in that of every range covering both. -/
theorem C7_union_algebra (a b c : Range) :
    a.union b = b.union a ∧
    a.union (b.union c) = (a.union b).union c ∧
    a.union a = a ∧
    (a.union b).start = a.start.min b.start ∧
    (a.union b).stop = a.stop.max b.stop ∧
    (Location.le (a.union b).start a.start ∧ Location.le (a.union b).start b.start ∧
      Location.le a.stop (a.union b).stop ∧ Location.le b.stop (a.union b).stop) ∧
    (∀ r : Range, Location.le r.start a.start → Location.le r.start b.start →
      Location.le a.stop r.stop → Location.le b.stop r.stop →
      Location.le r.start (a.union b).start ∧ Location.le (a.union b).stop r.stop) := by
  refine ⟨Range.union_comm a b, Range.union_assoc a b c, Range.union_self a, rfl, rfl,
    ⟨Location.min_le_left _ _, Location.min_le_right _ _,
      Location.le_max_left _ _, Location.le_max_right _ _⟩, ?_⟩
  intro r h1 h2 h3 h4
  exact ⟨Location.le_min h1 h2, Location.max_le h3 h4⟩

/-- Witness for C7: the union algebra evaluated on concrete ranges,
including the minimality clause applied to a concrete covering range. -/
theorem C7_union_algebra_witness :
    rangeA.union rangeB = rangeB.union rangeA ∧
    (Location.le rangeR.start (rangeA.union rangeB).start ∧
      Location.le (rangeA.union rangeB).stop rangeR.stop) :=
  ⟨(C7_union_algebra rangeA rangeB rangeA).1,
    (C7_union_algebra rangeA rangeB rangeA).2.2.2.2.2.2 rangeR
      (by decide) (by decide) (by decide) (by decide)⟩

/-- A string is its character data repackaged (structure eta). -/
theorem string_mk_data (s : String) : String.mk s.data = s := rfl

/-- Running the splitter over a separator-free block of characters just
accumulates them (reversed) without emitting a segment. -/
theorem splitSegmentsAux_run (s : List Char) :
    pathSep ∉ s → ∀ (acc rest : List Char),
      splitSegmentsAux acc (s ++ rest) = splitSegmentsAux (s.reverse ++ acc) rest := by
  induction s with
  | nil =>
    intro _ acc rest
    simp
  | cons ch cs ih =>
    intro hs acc rest
    have hch : ¬(ch = pathSep) := by
      intro e
      exact hs (e ▸ List.mem_cons_self ch cs)
    have hcs : pathSep ∉ cs := fun hmem => hs (List.mem_cons_of_mem _ hmem)
    simp only [List.cons_append, List.append_eq, splitSegmentsAux]
    rw [if_neg hch, ih hcs (ch :: acc) rest]
    simp [List.append_assoc]

/-- A non-separator-leading string is never an absolute path: its head
character is not the separator. -/
theorem head_ne_sep {s : String} (hsep : pathSep ∉ s.data) :
    ¬ s.data.head? = some pathSep := by
  intro he
  cases hd : s.data with
  | nil =>
    rw [hd] at he
    cases he
  | cons c cs =>
    rw [hd] at he
    simp only [List.head?_cons, Option.some.injEq] at he
    refine hsep ?_
    rw [hd, ← he]
    exact List.mem_cons_self c cs

/-- A non-empty buffer not ending in the separator needs one. -/
theorem needSep_eq_true {buf : List Char} (hne : buf ≠ [])
    (hlast : buf.getLast? ≠ some pathSep) : needSep buf = true := by
  unfold needSep
  rw [List.getLast?_eq_getLast buf hne]
  show decide (buf.getLast hne ≠ pathSep) = true
  refine decide_eq_true (fun he => hlast ?_)
  rw [List.getLast?_eq_getLast buf hne, he]

/-- A non-empty separator-free character list does not end in the
separator. -/
theorem getLast?_ne_sep {l : List Char} (hne : l ≠ []) (hsep : pathSep ∉ l) :
    l.getLast? ≠ some pathSep := by
  intro he
  rw [List.getLast?_eq_getLast l hne] at he
  simp only [Option.some.injEq] at he
  exact hsep (he ▸ List.getLast_mem hne)

/-- Appending a separator and a non-empty separator-free segment leaves a
buffer not ending in the separator. -/
theorem getLast?_append_cons_ne_sep {buf : List Char} {s : String}
    (hne : s.data ≠ []) (hsep : pathSep ∉ s.data) :
    (buf ++ pathSep :: s.data).getLast? ≠ some pathSep := by
  intro he
  rw [List.getLast?_append] at he
  have h1 : (pathSep :: s.data).getLast? = s.data.getLast? := by
    cases hd : s.data with
    | nil => exact absurd hd hne
    | cons y ys => exact List.getLast?_cons_cons
  rw [h1, List.getLast?_eq_getLast s.data hne] at he
  have h2 : (some (s.data.getLast hne)).or buf.getLast? = some (s.data.getLast hne) := rfl
  rw [h2] at he
  simp only [Option.some.injEq] at he
  exact hsep (he ▸ List.getLast_mem hne)

/-- `PathBuf::push` of a separator-free segment onto the empty buffer is
just the segment's characters. -/
theorem pushSegment_nil (s : String) (hsep : pathSep ∉ s.data) :
    pushSegment [] s = s.data := by
  unfold pushSegment
  rw [if_neg (head_ne_sep hsep)]
  simp [needSep]

/-- `PathBuf::push` of a separator-free segment onto a buffer that needs a
separator appends the separator and the segment. -/
theorem pushSegment_eq (buf : List Char) (s : String) (hsep : pathSep ∉ s.data)
    (hneed : needSep buf = true) :
    pushSegment buf s = buf ++ pathSep :: s.data := by
  unfold pushSegment
  rw [if_neg (head_ne_sep hsep)]
  simp [hneed, List.append_assoc]

/-- Folding `pushSegment` over non-empty separator-free segments, starting
from a non-empty buffer not ending in the separator, appends one separator
before each segment. -/
theorem foldl_pushSegment (l : List String) :
    (∀ x ∈ l, x.data ≠ [] ∧ pathSep ∉ x.data) →
    ∀ buf : List Char, buf ≠ [] → buf.getLast? ≠ some pathSep →
      List.foldl pushSegment buf l = buf ++ sepTail l := by
  induction l with
  | nil =>
    intro _ buf _ _
    simp [sepTail]
  | cons s rest ih =>
    intro hl buf hbne hblast
    have hs := hl s (List.mem_cons_self s rest)
    have hrest : ∀ x ∈ rest, x.data ≠ [] ∧ pathSep ∉ x.data :=
      fun x hx => hl x (List.mem_cons_of_mem _ hx)
    simp only [List.foldl_cons]
    rw [pushSegment_eq buf s hs.2 (needSep_eq_true hbne hblast)]
    rw [ih hrest (buf ++ pathSep :: s.data) (by simp)
      (getLast?_append_cons_ne_sep hs.1 hs.2)]
    simp [sepTail, List.append_assoc]

/-- The joined path of a head segment and further segments, all non-empty
and separator-free: the head's characters followed by the
separator-prefixed tail. -/
theorem joinSegments_cons (s : String) (rest : List String)
    (hsd : s.data ≠ []) (hsep : pathSep ∉ s.data)
    (hrest : ∀ x ∈ rest, x.data ≠ [] ∧ pathSep ∉ x.data) :
    joinSegments (s :: rest) = s.data ++ sepTail rest := by
  unfold joinSegments
  simp only [List.foldl_cons]
  rw [pushSegment_nil s hsep]
  exact foldl_pushSegment rest hrest s.data hsd (getLast?_ne_sep hsd hsep)

/-- Splitting a head segment followed by a separator-prefixed tail of
non-empty separator-free segments recovers the segment sequence. -/
theorem splitSegments_sepTail (rest : List String) :
    (∀ x ∈ rest, x.data ≠ [] ∧ pathSep ∉ x.data) →
    ∀ s : String, pathSep ∉ s.data →
      splitSegments (s.data ++ sepTail rest) = s :: rest := by
  induction rest with
  | nil =>
    intro _ s hs
    have h := splitSegmentsAux_run s.data hs [] []
    rw [List.append_nil, List.append_nil] at h
    simp only [sepTail, List.append_nil, splitSegments]
    rw [h]
    simp [splitSegmentsAux, string_mk_data]
  | cons s2 rest2 ih =>
    intro hl s hs
    have h2 := hl s2 (List.mem_cons_self s2 rest2)
    have hrest2 : ∀ x ∈ rest2, x.data ≠ [] ∧ pathSep ∉ x.data :=
      fun x hx => hl x (List.mem_cons_of_mem _ hx)
    have htail := ih hrest2 s2 h2.2
    simp only [sepTail, splitSegments] at htail ⊢
    have h := splitSegmentsAux_run s.data hs [] (pathSep :: (s2.data ++ sepTail rest2))
    rw [List.append_nil] at h
    rw [h]
    simp only [splitSegmentsAux]
    simp [string_mk_data, htail]

/-- Counterexample for C9 as stated: the segment sequence `["a", "", "b"]`
is non-empty and none of its segments contains a slash, backslash, or
colon, yet `PathBuf::push` contributes no characters for the empty segment,
so the path collects to `a/b` and re-splitting yields `["a", "b"]`, not the
original sequence. -/
theorem C9_path_round_trip_counterexample :
    (["a", "", "b"] : List String) ≠ [] ∧
    (∀ s ∈ (["a", "", "b"] : List String),
      pathSep ∉ s.data ∧ '\\' ∉ s.data ∧ ':' ∉ s.data) ∧
    splitSegments (joinSegments ["a", "", "b"]) = ["a", "b"] ∧
    splitSegments (joinSegments ["a", "", "b"]) ≠ ["a", "", "b"] :=
  ⟨by decide, by decide, by decide, by decide⟩

/-- Claim C9, amended: for every non-empty sequence of non-empty segments,
none containing a forward slash, backslash, or colon, collecting the
segments into a filesystem path (folding `PathBuf::push`) and re-splitting
that path on separators reproduces exactly the original segment sequence.
(The original claim admitted empty segments, for which `PathBuf::push`
emits no characters, collapsing them — see the counterexample.) -/
theorem C9_path_round_trip (segs : List String) (hne : segs ≠ [])
    (hseg : ∀ s ∈ segs,
      s.data ≠ [] ∧ pathSep ∉ s.data ∧ '\\' ∉ s.data ∧ ':' ∉ s.data) :
    splitSegments (joinSegments segs) = segs := by
  cases segs with
  | nil => exact absurd rfl hne
  | cons s rest =>
    have hs := hseg s (List.mem_cons_self s rest)
    have hrest : ∀ x ∈ rest, x.data ≠ [] ∧ pathSep ∉ x.data :=
      fun x hx =>
        ⟨(hseg x (List.mem_cons_of_mem _ hx)).1, (hseg x (List.mem_cons_of_mem _ hx)).2.1⟩
    rw [joinSegments_cons s rest hs.1 hs.2.1 hrest]
    exact splitSegments_sepTail rest hrest s hs.2.1

/-- Witness for C9: the round trip evaluated on the concrete segment
sequence `["a", "bc"]`. -/
theorem C9_path_round_trip_witness :
    splitSegments (joinSegments ["a", "bc"]) = ["a", "bc"] :=
  C9_path_round_trip ["a", "bc"] (by decide) (by decide)


/-- Claim C10: `load` never consults the `modules` cache before loading.
For every loader state with `p` not currently loading, the outcome of
`load` is fully determined by a fresh open-and-read of the file: the cache
entry for `p` is unconditionally overwritten with the fresh read's outcome
(whatever entry was there before), the fresh read's diagnostics are
appended to the emitter, and no other state depends on the prior cache. -/
theorem C10_load_always_rereads (s : ModuleLoader) (fs : Filesystem) (p : ModulePath)
    (h : p ∉ s.currently_loading) :
    s.load fs p
      = { currently_loading := s.currently_loading
          modules := fun q =>
            if q = p then
              some ((readFileLines fs p).bind
                (fun _ => DiagnosticResult.mkOk Module.mk)).toOption
            else s.modules q
          error_emitter := s.error_emitter.process
            ((readFileLines fs p).bind
              (fun _ => DiagnosticResult.mkOk Module.mk)).diagnostics } := by
  unfold ModuleLoader.load
  rw [if_neg h]
  dsimp only [ErrorEmitter.consumeDiagnostic]
  rw [Finset.erase_insert h]

/-- Witness for C10: a loader that already caches `["main"]` still re-reads
the file and overwrites its cache entry with the fresh outcome. -/
theorem C10_load_always_rereads_witness :
    loaderWithEntry.load fsOneLine mpMain
      = { currently_loading := loaderWithEntry.currently_loading
          modules := fun q =>
            if q = mpMain then
              some ((readFileLines fsOneLine mpMain).bind
                (fun _ => DiagnosticResult.mkOk Module.mk)).toOption
            else loaderWithEntry.modules q
          error_emitter := loaderWithEntry.error_emitter.process
            ((readFileLines fsOneLine mpMain).bind
              (fun _ => DiagnosticResult.mkOk Module.mk)).diagnostics } :=
  C10_load_always_rereads loaderWithEntry fsOneLine mpMain
    (by simp [loaderWithEntry])

end Shoumei
